import Mathlib

/-!
# Verification of the qaai runner core

Shallow embedding of the job-queue dispatcher, job store, flake detector and
coverage tracker of the qaai repository (`services/runner/`), with theorems
settling the specification claims about them.

JavaScript numbers are modelled exactly: integer counts as `ℕ`, general
numeric values as `ℚ`, and the square-root-carrying confidence-interval
values as `ℝ`.  Strings are modelled as Lean `String`/`List Char`.
-/

namespace QAAI

/-- JS `Math.round x` (round half toward positive infinity) on rationals. -/
def jsRound (q : ℚ) : ℚ := (⌊q + 1/2⌋ : ℤ)

/-- JS `s || fallback` for strings: the empty string is falsy. -/
def jsOrString (s fallback : String) : String := if s = "" then fallback else s

/-- JS `s.slice(0, n)`: the first `n` characters. -/
def jsSlice (s : String) (n : ℕ) : String := String.mk (s.data.take n)

namespace FlakeDetector

/-- `DEFAULT_CONFIG` of `flake-detector.js`. -/
structure FlakeConfig where
  minRuns : ℚ
  timeWindowDays : ℚ
  flakeRateThreshold : ℚ
  minFailures : ℚ
  confidenceLevel : ℚ

def DEFAULT_CONFIG : FlakeConfig :=
  { minRuns := 5
    timeWindowDays := 30
    flakeRateThreshold := 10
    minFailures := 2
    confidenceLevel := 0.95 }

/-- `calculateFlakeRate(passed, failed, flaky)` from `flake-detector.js`. -/
def calculateFlakeRate (passed failed flaky : ℕ) : ℚ :=
  let total := passed + failed + flaky
  if total = 0 then 0
  else ((failed : ℚ) + (flaky : ℚ)) / (total : ℚ) * 100

/-- Result record of `calculateConfidenceInterval`. -/
structure ConfInterval where
  lower : ℝ
  upper : ℝ

/-- `calculateConfidenceInterval(successes, total, confidence)` from
`flake-detector.js` (Wilson score interval; note the z-score is `1.96`
exactly when `confidence === 0.95` and `2.576` otherwise). -/
noncomputable def calculateConfidenceInterval
    (successes total : ℕ) (confidence : ℚ) : ConfInterval :=
  if total = 0 then { lower := 0, upper := 0 }
  else
    let p : ℝ := (successes : ℝ) / (total : ℝ)
    let z : ℝ := if confidence = 0.95 then 1.96 else 2.576
    let denominator : ℝ := 1 + z * z / (total : ℝ)
    let center : ℝ := p + z * z / (2 * (total : ℝ))
    let margin : ℝ := z * Real.sqrt ((p * (1 - p) + z * z / (4 * (total : ℝ))) / (total : ℝ))
    { lower := max 0 ((center - margin) / denominator)
      upper := min 1 ((center + margin) / denominator) }

/-- The `stats` object consumed by `isFlaky` (counts as produced by
`analyzeTestFlakiness`: `total` is the full run count, including skipped). -/
structure FlakeStats where
  passed : ℕ
  failed : ℕ
  flaky : ℕ
  total : ℕ
deriving Repr, DecidableEq

open Classical in
/-- `isFlaky(stats, config)` from `flake-detector.js`. -/
noncomputable def isFlaky (stats : FlakeStats) (config : FlakeConfig) : Bool :=
  if (stats.total : ℚ) < config.minRuns then false
  else if stats.passed = 0 ∨ ((stats.failed : ℚ) + (stats.flaky : ℚ)) < config.minFailures then
    false
  else if calculateFlakeRate stats.passed stats.failed stats.flaky < config.flakeRateThreshold then
    false
  else
    let failures := stats.failed + stats.flaky
    let ci := calculateConfidenceInterval failures stats.total config.confidenceLevel
    decide (0 < ci.lower) && decide (ci.upper < 1)

/-- Unfolding of `calculateConfidenceInterval` at a nonzero total and the
exact confidence level `0.95` (z-score `1.96`). -/
theorem calcCI_eq_95 (s t : ℕ) (ht : t ≠ 0) :
    calculateConfidenceInterval s t 0.95 =
      { lower := max 0 (((s : ℝ) / t + 1.96 * 1.96 / (2 * t) -
            1.96 * Real.sqrt (((s : ℝ) / t * (1 - (s : ℝ) / t) + 1.96 * 1.96 / (4 * t)) / t)) /
          (1 + 1.96 * 1.96 / t))
        upper := min 1 (((s : ℝ) / t + 1.96 * 1.96 / (2 * t) +
            1.96 * Real.sqrt (((s : ℝ) / t * (1 - (s : ℝ) / t) + 1.96 * 1.96 / (4 * t)) / t)) /
          (1 + 1.96 * 1.96 / t)) } := by
  unfold calculateConfidenceInterval
  rw [if_neg ht, if_pos rfl]

/-- Unfolding of `calculateConfidenceInterval` at a nonzero total and any
confidence level other than `0.95` (z-score `2.576`). -/
theorem calcCI_eq_other (s t : ℕ) (conf : ℚ) (ht : t ≠ 0) (hc : conf ≠ 0.95) :
    calculateConfidenceInterval s t conf =
      { lower := max 0 (((s : ℝ) / t + 2.576 * 2.576 / (2 * t) -
            2.576 * Real.sqrt (((s : ℝ) / t * (1 - (s : ℝ) / t) + 2.576 * 2.576 / (4 * t)) / t)) /
          (1 + 2.576 * 2.576 / t))
        upper := min 1 (((s : ℝ) / t + 2.576 * 2.576 / (2 * t) +
            2.576 * Real.sqrt (((s : ℝ) / t * (1 - (s : ℝ) / t) + 2.576 * 2.576 / (4 * t)) / t)) /
          (1 + 2.576 * 2.576 / t)) } := by
  unfold calculateConfidenceInterval
  rw [if_neg ht, if_neg hc]

/-- Sanity bounds of the Wilson score interval construction used by
`calculateConfidenceInterval`: the clamped bounds are ordered and lie in
`[0, 1]` for any proportion `p ∈ [0, 1]`, positive z-score and sample size. -/
theorem wilson_interval_bounds (p z t : ℝ) (hp0 : 0 ≤ p) (hp1 : p ≤ 1)
    (hz : 0 < z) (ht : 0 < t) :
    0 ≤ max 0 ((p + z * z / (2 * t) - z * Real.sqrt ((p * (1 - p) + z * z / (4 * t)) / t)) /
        (1 + z * z / t)) ∧
    max 0 ((p + z * z / (2 * t) - z * Real.sqrt ((p * (1 - p) + z * z / (4 * t)) / t)) /
        (1 + z * z / t)) ≤
      min 1 ((p + z * z / (2 * t) + z * Real.sqrt ((p * (1 - p) + z * z / (4 * t)) / t)) /
        (1 + z * z / t)) ∧
    min 1 ((p + z * z / (2 * t) + z * Real.sqrt ((p * (1 - p) + z * z / (4 * t)) / t)) /
        (1 + z * z / t)) ≤ 1 := by
  set m := z * Real.sqrt ((p * (1 - p) + z * z / (4 * t)) / t) with hm_def
  set c := p + z * z / (2 * t) with hc_def
  set d := 1 + z * z / t with hd_def
  have hm : 0 ≤ m := mul_nonneg hz.le (Real.sqrt_nonneg _)
  have hd : 0 < d := by rw [hd_def]; positivity
  have hc0 : 0 ≤ c := by rw [hc_def]; positivity
  have hhalf : z * z / (2 * t) ≤ z * z / t :=
    div_le_div_of_nonneg_left (by positivity) ht (by linarith)
  have hcd : c ≤ d := by rw [hc_def, hd_def]; linarith
  refine ⟨le_max_left 0 _, ?_, min_le_left 1 _⟩
  refine max_le (le_min zero_le_one (by positivity)) (le_min ?_ ?_)
  · rw [div_le_one hd]; linarith
  · rw [div_le_div_iff_of_pos_right hd]; linarith

/-- `calculateConfidenceInterval` at `total = 0`. -/
theorem calcCI_zero (s : ℕ) (conf : ℚ) :
    calculateConfidenceInterval s 0 conf = { lower := 0, upper := 0 } := by
  unfold calculateConfidenceInterval
  rw [if_pos rfl]

/-- C6: for `0 ≤ successes ≤ total` with `total > 0`, `calculateConfidenceInterval`
at confidence `0.95` returns exactly the Wilson score interval with `z = 1.96`
(`center = p + z²/(2n)`, `margin = z·√((p(1-p) + z²/(4n))/n)`,
`denominator = 1 + z²/n`, clamped into `[0,1]`), the result satisfies
`0 ≤ lower ≤ upper ≤ 1`, and at `total = 0` it returns `{lower := 0, upper := 0}`. -/
theorem confidenceInterval_wilson_bounds (s t : ℕ) (hst : s ≤ t) (ht : 0 < t) :
    (calculateConfidenceInterval s t 0.95).lower =
      max 0 (((s : ℝ) / t + 1.96 ^ 2 / (2 * t) -
          1.96 * Real.sqrt (((s : ℝ) / t * (1 - (s : ℝ) / t) + 1.96 ^ 2 / (4 * t)) / t)) /
        (1 + 1.96 ^ 2 / t)) ∧
    (calculateConfidenceInterval s t 0.95).upper =
      min 1 (((s : ℝ) / t + 1.96 ^ 2 / (2 * t) +
          1.96 * Real.sqrt (((s : ℝ) / t * (1 - (s : ℝ) / t) + 1.96 ^ 2 / (4 * t)) / t)) /
        (1 + 1.96 ^ 2 / t)) ∧
    0 ≤ (calculateConfidenceInterval s t 0.95).lower ∧
    (calculateConfidenceInterval s t 0.95).lower ≤ (calculateConfidenceInterval s t 0.95).upper ∧
    (calculateConfidenceInterval s t 0.95).upper ≤ 1 ∧
    calculateConfidenceInterval s 0 0.95 = { lower := 0, upper := 0 } := by
  have hsq : (1.96 : ℝ) ^ 2 = 1.96 * 1.96 := by norm_num
  have ht' : (0 : ℝ) < t := by exact_mod_cast ht
  have hp0 : 0 ≤ (s : ℝ) / t := by positivity
  have hp1 : (s : ℝ) / t ≤ 1 := by
    rw [div_le_one ht']
    exact_mod_cast hst
  have hb := wilson_interval_bounds ((s : ℝ) / t) 1.96 t hp0 hp1 (by norm_num) ht'
  rw [calcCI_eq_95 s t ht.ne', hsq]
  exact ⟨rfl, rfl, hb.1, hb.2.1, hb.2.2, calcCI_zero s 0.95⟩

/-- Witness for `confidenceInterval_wilson_bounds` at `successes = 1`, `total = 2`. -/
theorem confidenceInterval_wilson_bounds_witness :
    0 ≤ (calculateConfidenceInterval 1 2 0.95).lower ∧
    (calculateConfidenceInterval 1 2 0.95).lower ≤ (calculateConfidenceInterval 1 2 0.95).upper ∧
    (calculateConfidenceInterval 1 2 0.95).upper ≤ 1 :=
  have h := confidenceInterval_wilson_bounds 1 2 (by norm_num) (by norm_num)
  ⟨h.2.2.1, h.2.2.2.1, h.2.2.2.2.1⟩

/-- C10: any confidence level other than exactly `0.95` falls through to the
99% z-score `2.576`: the returned interval is identical to the 99% one, and at
a concrete input (`successes = 1`, `total = 2`) a caller asking for `0.90`
receives a strictly wider interval than the 95% one. -/
theorem confidenceInterval_z_fallback :
    (∀ (s t : ℕ) (conf : ℚ), conf ≠ 0.95 →
        calculateConfidenceInterval s t conf = calculateConfidenceInterval s t 0.99) ∧
    (calculateConfidenceInterval 1 2 0.9).lower < (calculateConfidenceInterval 1 2 0.95).lower ∧
    (calculateConfidenceInterval 1 2 0.95).upper < (calculateConfidenceInterval 1 2 0.9).upper := by
  refine ⟨?_, ?_⟩
  · intro s t conf hc
    rcases Nat.eq_zero_or_pos t with ht | ht
    · subst ht; rw [calcCI_zero, calcCI_zero]
    · rw [calcCI_eq_other s t conf ht.ne' hc, calcCI_eq_other s t 0.99 ht.ne' (by norm_num)]
  · rw [calcCI_eq_95 1 2 (by norm_num), calcCI_eq_other 1 2 0.9 (by norm_num) (by norm_num)]
    have hc1 : ((1 : ℕ) : ℝ) = 1 := by norm_num
    have hc2 : ((2 : ℕ) : ℝ) = 2 := by norm_num
    rw [hc1, hc2]
    set s1 : ℝ := Real.sqrt ((1 / 2 * (1 - 1 / 2) + 1.96 * 1.96 / (4 * 2)) / 2) with hs1_def
    set s2 : ℝ := Real.sqrt ((1 / 2 * (1 - 1 / 2) + 2.576 * 2.576 / (4 * 2)) / 2) with hs2_def
    have hs1_lt : s1 < 0.6043 := by
      rw [hs1_def, Real.sqrt_lt' (by norm_num)]; norm_num
    have hs1_gt : (0.6041 : ℝ) < s1 := by
      rw [hs1_def, Real.lt_sqrt (by norm_num)]; norm_num
    have hs2_lt : s2 < 0.7347 := by
      rw [hs2_def, Real.sqrt_lt' (by norm_num)]; norm_num
    have hs2_gt : (0.7346 : ℝ) < s2 := by
      rw [hs2_def, Real.lt_sqrt (by norm_num)]; norm_num
    have hlow95 : (0 : ℝ) ≤ (1 / 2 + 1.96 * 1.96 / (2 * 2) - 1.96 * s1) / (1 + 1.96 * 1.96 / 2) := by
      apply div_nonneg _ (by norm_num)
      nlinarith
    have hlow90 : (0 : ℝ) ≤ (1 / 2 + 2.576 * 2.576 / (2 * 2) - 2.576 * s2) / (1 + 2.576 * 2.576 / 2) := by
      apply div_nonneg _ (by norm_num)
      nlinarith
    have hup95 : (1 / 2 + 1.96 * 1.96 / (2 * 2) + 1.96 * s1) / (1 + 1.96 * 1.96 / 2) ≤ 1 := by
      rw [div_le_one (by norm_num)]
      nlinarith
    have hup90 : (1 / 2 + 2.576 * 2.576 / (2 * 2) + 2.576 * s2) / (1 + 2.576 * 2.576 / 2) ≤ 1 := by
      rw [div_le_one (by norm_num)]
      nlinarith
    constructor
    · show max 0 _ < max 0 _
      rw [max_eq_right hlow90, max_eq_right hlow95, div_lt_div_iff₀ (by norm_num) (by norm_num)]
      nlinarith
    · show min 1 _ < min 1 _
      rw [min_eq_right hup95, min_eq_right hup90, div_lt_div_iff₀ (by norm_num) (by norm_num)]
      nlinarith

/-- Witness for `confidenceInterval_z_fallback`: the fallback equation applied
at confidence `0.90`, `successes = 1`, `total = 2`. -/
theorem confidenceInterval_z_fallback_witness :
    calculateConfidenceInterval 1 2 0.9 = calculateConfidenceInterval 1 2 0.99 :=
  confidenceInterval_z_fallback.1 1 2 0.9 (by norm_num)

/-- Characterization of `isFlaky` at the default configuration: the gate is the
conjunction of the run-count, both-outcomes, flake-rate and confidence-interval
conditions. -/
theorem isFlaky_true_iff (s : FlakeStats) :
    isFlaky s DEFAULT_CONFIG = true ↔
      5 ≤ s.total ∧ 0 < s.passed ∧ 2 ≤ s.failed + s.flaky ∧
      10 ≤ ((s.failed : ℚ) + (s.flaky : ℚ)) /
          ((s.passed : ℚ) + (s.failed : ℚ) + (s.flaky : ℚ)) * 100 ∧
      0 < (calculateConfidenceInterval (s.failed + s.flaky) s.total 0.95).lower ∧
      (calculateConfidenceInterval (s.failed + s.flaky) s.total 0.95).upper < 1 := by
  obtain ⟨p, f, fl, t⟩ := s
  simp only [isFlaky, DEFAULT_CONFIG]
  split_ifs with h1 h2 h3
  · simp only [Bool.false_eq_true, false_iff]
    rintro ⟨h5, -⟩
    have : (5 : ℚ) ≤ t := by exact_mod_cast h5
    linarith
  · simp only [Bool.false_eq_true, false_iff]
    rintro ⟨-, hp, hff, -⟩
    rcases h2 with h2 | h2
    · omega
    · have : (2 : ℚ) ≤ (f : ℚ) + fl := by exact_mod_cast hff
      linarith
  · simp only [Bool.false_eq_true, false_iff]
    rintro ⟨-, hp, -, hrate, -⟩
    rw [calculateFlakeRate] at h3
    have htot : p + f + fl ≠ 0 := by omega
    rw [if_neg htot] at h3
    have : ((f : ℚ) + fl) / ((p : ℚ) + f + fl) * 100 < 10 := by
      push_cast at h3 ⊢
      convert h3 using 3
    linarith
  · simp only [Bool.and_eq_true, decide_eq_true_eq]
    constructor
    · rintro ⟨hl, hu⟩
      have h5 : 5 ≤ t := by
        have := not_lt.mp h1
        exact_mod_cast this
      push_neg at h2
      obtain ⟨hp, hff⟩ := h2
      have hp' : 0 < p := Nat.pos_of_ne_zero hp
      have hff' : 2 ≤ f + fl := by exact_mod_cast hff
      have hrate := not_lt.mp h3
      rw [calculateFlakeRate, if_neg (by omega : p + f + fl ≠ 0)] at hrate
      refine ⟨h5, hp', hff', ?_, hl, hu⟩
      push_cast at hrate ⊢
      convert hrate using 3
    · rintro ⟨-, -, -, -, hl, hu⟩
      exact ⟨hl, hu⟩

/-- The confidence-interval gate passes at `failures = 5`, `total = 10`. -/
theorem ciGate_5_10 :
    0 < (calculateConfidenceInterval 5 10 0.95).lower ∧
      (calculateConfidenceInterval 5 10 0.95).upper < 1 := by
  rw [calcCI_eq_95 5 10 (by norm_num)]
  have hc5 : ((5 : ℕ) : ℝ) = 5 := by norm_num
  have hc10 : ((10 : ℕ) : ℝ) = 10 := by norm_num
  rw [hc5, hc10]
  set s1 : ℝ := Real.sqrt ((5 / 10 * (1 - 5 / 10) + 1.96 * 1.96 / (4 * 10)) / 10) with hs1_def
  have hs1_lt : s1 < 0.19 := by
    rw [hs1_def, Real.sqrt_lt' (by norm_num)]; norm_num
  have hs1_nonneg : 0 ≤ s1 := Real.sqrt_nonneg _
  constructor
  · have hpos : (0 : ℝ) < (5 / 10 + 1.96 * 1.96 / (2 * 10) - 1.96 * s1) / (1 + 1.96 * 1.96 / 10) := by
      apply div_pos _ (by norm_num)
      nlinarith
    calc (0 : ℝ) < _ := hpos
      _ ≤ _ := le_max_right 0 _
  · have hlt : (5 / 10 + 1.96 * 1.96 / (2 * 10) + 1.96 * s1) / (1 + 1.96 * 1.96 / 10) < 1 := by
      rw [div_lt_one (by norm_num)]
      nlinarith
    calc min 1 ((5 / 10 + 1.96 * 1.96 / (2 * 10) + 1.96 * s1) / (1 + 1.96 * 1.96 / 10))
        ≤ _ := min_le_right 1 _
      _ < 1 := hlt

/-- C5: `isFlaky` at the default configuration is true exactly when
`total ≥ 5`, `passed > 0`, `failed + flaky ≥ 2`, the flake rate is at least
10%, and the Wilson interval over `(failed+flaky)/total` has `lower > 0` and
`upper < 1`; any stats with `passed = 0` or `failed + flaky = 0` is never
flaky, and `passed = 5, failed = 5, flaky = 0, total = 10` is flaky. -/
theorem isFlaky_default_gate :
    (∀ s : FlakeStats, isFlaky s DEFAULT_CONFIG = true ↔
        5 ≤ s.total ∧ 0 < s.passed ∧ 2 ≤ s.failed + s.flaky ∧
        10 ≤ ((s.failed : ℚ) + (s.flaky : ℚ)) /
            ((s.passed : ℚ) + (s.failed : ℚ) + (s.flaky : ℚ)) * 100 ∧
        0 < (calculateConfidenceInterval (s.failed + s.flaky) s.total 0.95).lower ∧
        (calculateConfidenceInterval (s.failed + s.flaky) s.total 0.95).upper < 1) ∧
    (∀ s : FlakeStats, s.passed = 0 → isFlaky s DEFAULT_CONFIG = false) ∧
    (∀ s : FlakeStats, s.failed + s.flaky = 0 → isFlaky s DEFAULT_CONFIG = false) ∧
    isFlaky { passed := 5, failed := 5, flaky := 0, total := 10 } DEFAULT_CONFIG = true := by
  refine ⟨isFlaky_true_iff, ?_, ?_, ?_⟩
  · intro s h0
    cases hb : isFlaky s DEFAULT_CONFIG with
    | false => rfl
    | true =>
      obtain ⟨-, hp, -⟩ := (isFlaky_true_iff s).mp hb
      omega
  · intro s h0
    cases hb : isFlaky s DEFAULT_CONFIG with
    | false => rfl
    | true =>
      obtain ⟨-, -, hff, -⟩ := (isFlaky_true_iff s).mp hb
      omega
  · refine (isFlaky_true_iff _).mpr ⟨by norm_num, by norm_num, by norm_num, ?_, ?_, ?_⟩
    · norm_num
    · exact ciGate_5_10.1
    · exact ciGate_5_10.2

/-- Witness for `isFlaky_default_gate`: a test with only failures
(`passed = 0`) is reported non-flaky. -/
theorem isFlaky_default_gate_witness :
    isFlaky { passed := 0, failed := 10, flaky := 0, total := 10 } DEFAULT_CONFIG = false :=
  isFlaky_default_gate.2.1 { passed := 0, failed := 10, flaky := 0, total := 10 } rfl

/-- One row of the fetched `run_tests` history (newest first).  The
`created_at` timestamp is modelled in whole hours since the epoch, since the
only use the detector makes of it is `new Date(created_at).getHours()`. -/
structure RunRecord where
  status : String
  duration_ms : Option ℚ
  created_at : ℕ

/-- `new Date(t).getHours()` on an epoch-hour timestamp. -/
def jsGetHours (t : ℕ) : ℕ := t % 24

/-- A run counts toward failure streaks and the hour histogram when its
status is `failed` or `flaky`. -/
def isUnstableStatus (st : String) : Bool := st = "failed" || st = "flaky"

/-- The `(currentStreak, maxConsecutiveFailures)` fold of
`analyzeFailurePatterns`. -/
def maxConsecutiveFailuresOf (runs : List RunRecord) : ℕ :=
  (runs.foldl
    (fun (acc : ℕ × ℕ) r =>
      if isUnstableStatus r.status then (acc.1 + 1, max acc.2 (acc.1 + 1)) else (0, acc.2))
    (0, 0)).2

/-- Number of adjacent `passed`/`failed` flips (either direction) in the
run list, as counted by `analyzeFailurePatterns`. -/
def countAlternations : List RunRecord → ℕ
  | a :: b :: rest =>
    (if (a.status = "passed" ∧ b.status = "failed") ∨
        (a.status = "failed" ∧ b.status = "passed") then 1 else 0) +
      countAlternations (b :: rest)
  | _ => 0

/-- Increment the count for hour `h` in the `failuresByHour` histogram
(an insertion-ordered association list). -/
def bumpHour : List (ℕ × ℕ) → ℕ → List (ℕ × ℕ)
  | [], h => [(h, 1)]
  | (k, v) :: rest, h => if k = h then (k, v + 1) :: rest else (k, v) :: bumpHour rest h

/-- The `failuresByHour` histogram of `analyzeFailurePatterns`. -/
def failuresByHour (runs : List RunRecord) : List (ℕ × ℕ) :=
  runs.foldl
    (fun acc r =>
      if isUnstableStatus r.status then bumpHour acc (jsGetHours r.created_at) else acc)
    []

/-- Result object of `analyzeFailurePatterns`; the fields other than
`hasPattern` are absent (`none`) when fewer than two runs exist. -/
structure FailurePatterns where
  hasPattern : Bool
  maxConsecutiveFailures : Option ℕ
  alternationRate : Option ℚ
  timePattern : Option (List (ℕ × ℕ))
deriving DecidableEq

/-- `analyzeFailurePatterns(runs)` from `flake-detector.js`. -/
def analyzeFailurePatterns (runs : List RunRecord) : FailurePatterns :=
  if runs.length < 2 then
    { hasPattern := false
      maxConsecutiveFailures := none
      alternationRate := none
      timePattern := none }
  else
    let maxConsec := maxConsecutiveFailuresOf runs
    let alternationRate : ℚ := (countAlternations runs : ℚ) / ((runs.length : ℚ) - 1)
    let byHour := failuresByHour runs
    { hasPattern := decide (2 < maxConsec) || decide ((1 : ℚ)/2 < alternationRate)
      maxConsecutiveFailures := some maxConsec
      alternationRate := some (jsRound (alternationRate * 100) / 100)
      timePattern := if byHour.length ≠ 0 then some byHour else none }

/-- JS `x > n` where `x` may be `undefined` (absent field): `undefined > n`
is false. -/
def jsGtNat (x : Option ℕ) (n : ℕ) : Bool :=
  match x with
  | none => false
  | some v => n < v

/-- JS `x > q` where `x` may be `undefined`. -/
def jsGtRat (x : Option ℚ) (q : ℚ) : Bool :=
  match x with
  | none => false
  | some v => q < v

/-- `generateRecommendation(isFlaky, flakeRate, patterns)` from
`flake-detector.js`. -/
def generateRecommendation (flakyVerdict : Bool) (flakeRate : ℚ)
    (patterns : FailurePatterns) : String :=
  if !flakyVerdict then "Test appears stable. Continue monitoring."
  else
    let recommendations : List String :=
      [if 30 < flakeRate then
          "High flake rate detected. Investigate test logic and dependencies."
        else if 15 < flakeRate then
          "Moderate flake rate. Review test for timing issues or race conditions."
        else "Low flake rate. Monitor for patterns."]
      ++ (if jsGtNat patterns.maxConsecutiveFailures 3 then
            ["Consecutive failures detected. Check for environmental issues."]
          else [])
      ++ (if jsGtRat patterns.alternationRate (1/2) then
            ["Alternating pass/fail pattern suggests timing or state issues."]
          else [])
      ++ (if patterns.timePattern.isSome then
            ["Time-based failure pattern detected. Check for time-dependent logic."]
          else [])
    String.intercalate " " recommendations

/-- The `stats` object of `analyzeTestFlakiness`; the `skipped` and
`avgDuration` fields are absent (`none`) on the insufficient-data path. -/
structure RunStats where
  total : ℕ
  passed : ℕ
  failed : ℕ
  flaky : ℕ
  skipped : Option ℕ
  avgDuration : Option ℚ
deriving DecidableEq

/-- JS `Math.round` on a real value. -/
noncomputable def jsRoundR (x : ℝ) : ℝ := (⌊x + 1/2⌋ : ℤ)

/-- The `confidence` sub-object of the analysis result. -/
structure ConfidenceReport where
  level : ℚ
  lower : ℝ
  upper : ℝ

/-- Result object of `analyzeTestFlakiness`; fields that the
insufficient-data early return omits are `Option`s. -/
structure FlakeAnalysis where
  testCaseId : String
  isFlaky : Bool
  reason : Option String
  flakeRate : Option ℚ
  stats : RunStats
  confidence : Option ConfidenceReport
  patterns : Option FailurePatterns
  recommendation : Option String

/-- `analyzeTestFlakiness(testCaseId, options)` from `flake-detector.js`,
shallowly embedded over the list of history rows the database query returns
(newest first, within the 30-day window), at the default configuration. -/
noncomputable def analyzeTestFlakiness (testCaseId : String)
    (runs : List RunRecord) : FlakeAnalysis :=
  if runs.length = 0 then
    { testCaseId := testCaseId
      isFlaky := false
      reason := some "insufficient_data"
      flakeRate := none
      stats := { total := 0, passed := 0, failed := 0, flaky := 0
                 skipped := none, avgDuration := none }
      confidence := none
      patterns := none
      recommendation := none }
  else
    let passed := (runs.filter (fun r => r.status = "passed")).length
    let failed := (runs.filter (fun r => r.status = "failed")).length
    let flaky := (runs.filter (fun r => r.status = "flaky")).length
    let skipped := (runs.filter (fun r => r.status = "skipped")).length
    let avgDuration : ℚ :=
      (runs.foldl (fun sum r => sum + r.duration_ms.getD 0) 0) / (runs.length : ℚ)
    let stats : FlakeStats :=
      { passed := passed, failed := failed, flaky := flaky, total := runs.length }
    let flakyVerdict := isFlaky stats DEFAULT_CONFIG
    let flakeRate := calculateFlakeRate passed failed flaky
    let failures := failed + flaky
    let ci := calculateConfidenceInterval failures runs.length DEFAULT_CONFIG.confidenceLevel
    let patterns := analyzeFailurePatterns runs
    { testCaseId := testCaseId
      isFlaky := flakyVerdict
      reason := none
      flakeRate := some (jsRound (flakeRate * 100) / 100)
      stats := { total := runs.length, passed := passed, failed := failed, flaky := flaky
                 skipped := some skipped, avgDuration := some avgDuration }
      confidence := some
        { level := DEFAULT_CONFIG.confidenceLevel
          lower := jsRoundR (ci.lower * 10000) / 100
          upper := jsRoundR (ci.upper * 10000) / 100 }
      patterns := some patterns
      recommendation := some (generateRecommendation flakyVerdict flakeRate patterns) }

/-- The confidence-interval gate passes at `failures = 2`, `total = 5`. -/
theorem ciGate_2_5 :
    0 < (calculateConfidenceInterval 2 5 0.95).lower ∧
      (calculateConfidenceInterval 2 5 0.95).upper < 1 := by
  rw [calcCI_eq_95 2 5 (by norm_num)]
  have hc2 : ((2 : ℕ) : ℝ) = 2 := by norm_num
  have hc5 : ((5 : ℕ) : ℝ) = 5 := by norm_num
  rw [hc2, hc5]
  set s1 : ℝ := Real.sqrt ((2 / 5 * (1 - 2 / 5) + 1.96 * 1.96 / (4 * 5)) / 5) with hs1_def
  have hs1_lt : s1 < 0.3 := by
    rw [hs1_def, Real.sqrt_lt' (by norm_num)]; norm_num
  have hs1_nonneg : 0 ≤ s1 := Real.sqrt_nonneg _
  constructor
  · have hpos : (0 : ℝ) < (2 / 5 + 1.96 * 1.96 / (2 * 5) - 1.96 * s1) / (1 + 1.96 * 1.96 / 5) := by
      apply div_pos _ (by norm_num)
      nlinarith
    calc (0 : ℝ) < _ := hpos
      _ ≤ _ := le_max_right 0 _
  · have hlt : (2 / 5 + 1.96 * 1.96 / (2 * 5) + 1.96 * s1) / (1 + 1.96 * 1.96 / 5) < 1 := by
      rw [div_lt_one (by norm_num)]
      nlinarith
    calc min 1 ((2 / 5 + 1.96 * 1.96 / (2 * 5) + 1.96 * s1) / (1 + 1.96 * 1.96 / 5))
        ≤ _ := min_le_right 1 _
      _ < 1 := hlt

/-- The stats of scenario B (`3` passes, `2` failures out of `5`) are flaky. -/
theorem isFlaky_scenarioB_stats :
    isFlaky { passed := 3, failed := 2, flaky := 0, total := 5 } DEFAULT_CONFIG = true := by
  refine (isFlaky_true_iff _).mpr ⟨by norm_num, by norm_num, by norm_num, by norm_num, ?_, ?_⟩
  · exact ciGate_2_5.1
  · exact ciGate_2_5.2

/-- Evaluation rule for `jsRound`. -/
theorem jsRound_eq_intCast (q : ℚ) (n : ℤ) (h1 : (n : ℚ) ≤ q + 1/2) (h2 : q + 1/2 < n + 1) :
    jsRound q = (n : ℚ) := by
  unfold jsRound
  congr 1
  rw [Int.floor_eq_iff]
  exact ⟨h1, by exact_mod_cast h2⟩

/-- Scenario B of the spec: five runs over 30 days, newest first:
pass, fail, pass, fail, pass. -/
def scenarioB_runs : List RunRecord :=
  [ { status := "passed", duration_ms := some 100, created_at := 4 }
  , { status := "failed", duration_ms := some 100, created_at := 3 }
  , { status := "passed", duration_ms := some 100, created_at := 2 }
  , { status := "failed", duration_ms := some 100, created_at := 1 }
  , { status := "passed", duration_ms := some 100, created_at := 0 } ]

set_option maxRecDepth 8192 in
/-- C7: on the history pass, fail, pass, fail, pass (newest first, 5 runs),
`analyzeTestFlakiness` reports a flake rate of 40, verdict flaky, an
alternation rate of 1, and a recommendation that carries the high-flake-rate
text (the `> 30%` band). -/
theorem analyzeTestFlakiness_scenarioB :
    (analyzeTestFlakiness "tc-B" scenarioB_runs).flakeRate = some 40 ∧
    (analyzeTestFlakiness "tc-B" scenarioB_runs).isFlaky = true ∧
    (analyzeTestFlakiness "tc-B" scenarioB_runs).patterns.map FailurePatterns.alternationRate =
      some (some 1) ∧
    ∃ rest : String,
      (analyzeTestFlakiness "tc-B" scenarioB_runs).recommendation =
        some ("High flake rate detected. Investigate test logic and dependencies." ++ rest) := by
  have hlen : ¬ scenarioB_runs.length = 0 := by decide
  have hp : (scenarioB_runs.filter (fun r => r.status = "passed")).length = 3 := by decide
  have hf : (scenarioB_runs.filter (fun r => r.status = "failed")).length = 2 := by decide
  have hfl : (scenarioB_runs.filter (fun r => r.status = "flaky")).length = 0 := by decide
  have hl5 : scenarioB_runs.length = 5 := by decide
  have hrate : calculateFlakeRate 3 2 0 = 40 := by norm_num [calculateFlakeRate]
  have hround40 : jsRound ((40 : ℚ) * 100) / 100 = 40 := by
    rw [jsRound_eq_intCast ((40 : ℚ) * 100) 4000 (by norm_num) (by norm_num)]
    norm_num
  have hmc : maxConsecutiveFailuresOf scenarioB_runs = 1 := by decide
  have hca : countAlternations scenarioB_runs = 4 := by decide
  have hfb : failuresByHour scenarioB_runs = [(3, 1), (1, 1)] := by decide
  have hround1 : jsRound (((4 : ℕ) : ℚ) / (((5 : ℕ) : ℚ) - 1) * 100) / 100 = 1 := by
    have h4 : ((4 : ℕ) : ℚ) / (((5 : ℕ) : ℚ) - 1) * 100 = 100 := by norm_num
    rw [h4, jsRound_eq_intCast (100 : ℚ) 100 (by norm_num) (by norm_num)]
    norm_num
  have hpat : analyzeFailurePatterns scenarioB_runs =
      { hasPattern := true
        maxConsecutiveFailures := some 1
        alternationRate := some 1
        timePattern := some [(3, 1), (1, 1)] } := by
    unfold analyzeFailurePatterns
    rw [if_neg (by decide)]
    dsimp only
    rw [hmc, hca, hfb, hl5]
    simp only [FailurePatterns.mk.injEq, Bool.or_eq_true, decide_eq_true_eq,
      Option.some.injEq, ne_eq, List.length_cons, List.length_nil, reduceIte]
    exact ⟨Or.inr (by norm_num), trivial, hround1, by norm_num⟩
  refine ⟨?_, ?_, ?_, ?_⟩
  · show (analyzeTestFlakiness "tc-B" scenarioB_runs).flakeRate = some 40
    unfold analyzeTestFlakiness
    rw [if_neg hlen]
    dsimp only
    rw [hp, hf, hfl, hrate, hround40]
  · show (analyzeTestFlakiness "tc-B" scenarioB_runs).isFlaky = true
    unfold analyzeTestFlakiness
    rw [if_neg hlen]
    dsimp only
    rw [hp, hf, hfl, hl5]
    exact isFlaky_scenarioB_stats
  · show (analyzeTestFlakiness "tc-B" scenarioB_runs).patterns.map FailurePatterns.alternationRate =
      some (some 1)
    unfold analyzeTestFlakiness
    rw [if_neg hlen]
    dsimp only
    rw [hpat]
    rfl
  · refine ⟨" Alternating pass/fail pattern suggests timing or state issues. Time-based failure pattern detected. Check for time-dependent logic.", ?_⟩
    show (analyzeTestFlakiness "tc-B" scenarioB_runs).recommendation = _
    unfold analyzeTestFlakiness
    rw [if_neg hlen]
    dsimp only
    rw [hp, hf, hfl, hl5, hrate, hpat, isFlaky_scenarioB_stats]
    unfold generateRecommendation
    simp only [Bool.not_true, Bool.false_eq_true, if_false]
    rw [if_pos (by norm_num : (30 : ℚ) < 40)]
    rw [if_neg (by decide : ¬ jsGtNat (some 1) 3 = true)]
    rw [if_pos (by
      show jsGtRat (some 1) (1/2) = true
      unfold jsGtRat
      simp only [decide_eq_true_eq]
      norm_num)]
    rw [if_pos (by decide : (some [((3 : ℕ), (1 : ℕ)), (1, 1)]).isSome = true)]
    decide

end FlakeDetector

namespace CoverageTracker

/-- The character class `[0-9a-f]` under the case-insensitive `i` flag. -/
def isHexChar (c : Char) : Bool :=
  c.isDigit || ('a' ≤ c && c ≤ 'f') || ('A' ≤ c && c ≤ 'F')

/-- Character class at position `i` of the 36-character UUID body
`[0-9a-f]{8}-[0-9a-f]{4}-[0-9a-f]{4}-[0-9a-f]{4}-[0-9a-f]{12}`:
positions 8, 13, 18 and 23 are dashes, all others hex digits. -/
def isUuidChar (i : ℕ) (c : Char) : Bool :=
  if i = 8 ∨ i = 13 ∨ i = 18 ∨ i = 23 then c = '-' else isHexChar c

/-- Does `l` start with the 36-character UUID body? -/
def uuidBody36 (l : List Char) : Bool :=
  ((List.range 36).all fun i => isUuidChar i (l.getD i ' ')) && decide (36 ≤ l.length)

/-- Does the UUID-segment regex `/\/[0-9a-f]{8}-...-[0-9a-f]{12}/i` match at
the head of `l` (a slash followed by the 36-character body)? -/
def uuidAt : List Char → Bool
  | [] => false
  | c :: r => decide (c = '/') && uuidBody36 r

/-- Left-to-right scan of `path.replace(uuidRegex, '/:id')` (global flag):
on a match emit `/:id` and skip the 37 matched characters, otherwise copy one
character and continue.  The counter holds match characters still to skip. -/
def uRun : ℕ → List Char → List Char
  | _ + 1, [] => []
  | k + 1, _ :: r => uRun k r
  | 0, [] => []
  | 0, c :: r => if uuidAt (c :: r) then '/' :: ':' :: 'i' :: 'd' :: uRun 36 r else c :: uRun 0 r

/-- Is the first character a decimal digit (`\d`)? -/
def headIsDigit : List Char → Bool
  | c :: _ => c.isDigit
  | [] => false

/-- Left-to-right scan of `normalized.replace(/\/\d+/g, '/:id')`: on a slash
followed by a digit emit `/:id` and skip the maximal digit run (the `skip`
flag records that a replaced digit run is being consumed). -/
def dRun : Bool → List Char → List Char
  | _, [] => []
  | skip, c :: r =>
    if skip && c.isDigit then dRun true r
    else if decide (c = '/') && headIsDigit r then '/' :: ':' :: 'i' :: 'd' :: dRun true r
    else c :: dRun false r

/-- `normalized.replace(/\/$/, '')`: drop a single trailing slash. -/
def stripTrailingSlash (l : List Char) : List Char :=
  if l.getLast? = some '/' then l.dropLast else l

/-- JS `normalized || '/'`: the empty string is falsy and becomes the root. -/
def jsOrRoot (l : List Char) : List Char := if l = [] then ['/'] else l

/-- `normalizeRoutePath(path)` from `coverage-tracker.js`: replace UUID
segments with `:id`, replace `/digits` with `:id`, drop everything from the
first `?`, drop one trailing slash, and default the empty result to `/`. -/
def normalizeRoutePath (path : String) : String :=
  String.mk (jsOrRoot (stripTrailingSlash
    (((dRun false (uRun 0 path.data))).takeWhile fun c => c ≠ '?')))

/-- Does the UUID-segment regex match anywhere in `l`? -/
def hasUuid : List Char → Bool
  | [] => false
  | c :: r => uuidAt (c :: r) || hasUuid r

/-- Does `/\/\d/` match anywhere in `l` (a slash directly followed by a
digit — exactly the situations `/\/\d+/g` rewrites)? -/
def hasSlashDigit : List Char → Bool
  | [] => false
  | c :: r => (decide (c = '/') && headIsDigit r) || hasSlashDigit r

/-- The skip counter of `uRun` just drops characters. -/
theorem uRun_skip (k : ℕ) (l : List Char) : uRun k l = uRun 0 (l.drop k) := by
  induction k generalizing l with
  | zero => rw [List.drop_zero]
  | succ k ih =>
    cases l with
    | nil => rfl
    | cons c r => rw [show uRun (k + 1) (c :: r) = uRun k r from rfl, ih, List.drop_succ_cons]

/-- The skip state of `dRun` consumes the maximal digit run. -/
theorem dRun_true (l : List Char) :
    dRun true l = dRun false (l.dropWhile fun c => c.isDigit) := by
  induction l with
  | nil => rfl
  | cons c r ih =>
    by_cases hc : c.isDigit = true
    · rw [show dRun true (c :: r) = dRun true r from by simp [dRun, hc], ih,
        List.dropWhile_cons_of_pos hc]
    · rw [List.dropWhile_cons_of_neg hc]
      simp only [dRun, hc, Bool.and_false]

/-- `getD` inside a long-enough `take` agrees with `getD`. -/
theorem getD_take_lt (l : List Char) (n i : ℕ) (d : Char) (h : i < n) :
    (l.take n).getD i d = l.getD i d := by
  induction l generalizing n i with
  | nil => simp
  | cons c r ih =>
    cases n with
    | zero => omega
    | succ n =>
      cases i with
      | zero => simp
      | succ i => simpa using ih n i (by omega)

/-- `uuidBody36` only inspects the first 36 characters. -/
theorem uuidBody36_congr (l l' : List Char) (h : l.take 36 = l'.take 36) :
    uuidBody36 l = uuidBody36 l' := by
  have hlen : (36 ≤ l.length) ↔ (36 ≤ l'.length) := by
    have := congrArg List.length h
    simp only [List.length_take] at this
    omega
  have h2 : ∀ i, i < 36 → l.getD i ' ' = l'.getD i ' ' := by
    intro i hi
    rw [← getD_take_lt l 36 i ' ' hi, ← getD_take_lt l' 36 i ' ' hi, h]
  rw [Bool.eq_iff_iff]
  simp only [uuidBody36, Bool.and_eq_true, List.all_eq_true, List.mem_range,
    decide_eq_true_eq]
  constructor
  · rintro ⟨ha, hb⟩
    exact ⟨fun i hi => (h2 i hi) ▸ ha i hi, hlen.mp hb⟩
  · rintro ⟨ha, hb⟩
    exact ⟨fun i hi => (h2 i hi).symm ▸ ha i hi, hlen.mpr hb⟩

/-- A matched UUID body consists of hex digits and dashes only. -/
theorem uuidBody36_mem_take (l : List Char) (h : uuidBody36 l = true) :
    ∀ c ∈ l.take 36, isHexChar c = true ∨ c = '-' := by
  simp only [uuidBody36, Bool.and_eq_true, List.all_eq_true, List.mem_range,
    decide_eq_true_eq] at h
  obtain ⟨ha, hlen⟩ := h
  intro c hc
  obtain ⟨i, hi, hgi⟩ := List.mem_iff_getElem.mp hc
  have hi36 : i < 36 := by
    have := List.length_take 36 l
    omega
  have hil : i < l.length := by
    have := List.length_take 36 l
    omega
  have hgd : l.getD i ' ' = c := by
    rw [List.getD_eq_getElem l ' ' hil, ← hgi, List.getElem_take]
  have := ha i hi36
  rw [hgd] at this
  unfold isUuidChar at this
  split at this
  · right; exact of_decide_eq_true this
  · left; exact this

/-- A matched UUID body is at least 36 characters long. -/
theorem uuidBody36_length (l : List Char) (h : uuidBody36 l = true) : 36 ≤ l.length := by
  simp only [uuidBody36, Bool.and_eq_true, decide_eq_true_eq] at h
  exact h.2

/-- A list starting with a non-hex character is not a UUID body. -/
theorem uuidBody36_false_cons (c : Char) (X : List Char) (hc : isHexChar c = false) :
    uuidBody36 (c :: X) = false := by
  have h0 : isUuidChar 0 ((c :: X).getD 0 ' ') = false := by
    simpa [isUuidChar] using hc
  unfold uuidBody36
  rw [List.all_eq_false.mpr ⟨0, by simp, by rw [h0]; exact Bool.false_ne_true⟩, Bool.false_and]

/-- Unfolding of `uRun` in the scan state. -/
theorem uRun_zero_cons (c : Char) (r : List Char) :
    uRun 0 (c :: r) =
      if uuidAt (c :: r) then '/' :: ':' :: 'i' :: 'd' :: uRun 36 r else c :: uRun 0 r := rfl

/-- Unfolding of `dRun` in the scan state. -/
theorem dRun_false_cons (c : Char) (r : List Char) :
    dRun false (c :: r) =
      if decide (c = '/') && headIsDigit r then '/' :: ':' :: 'i' :: 'd' :: dRun true r
      else c :: dRun false r := rfl

/-- Unfolding of `hasUuid` at a cons. -/
theorem hasUuid_cons (c : Char) (r : List Char) :
    hasUuid (c :: r) = (uuidAt (c :: r) || hasUuid r) := rfl

/-- Unfolding of `hasSlashDigit` at a cons. -/
theorem hasSlashDigit_cons (c : Char) (r : List Char) :
    hasSlashDigit (c :: r) = ((decide (c = '/') && headIsDigit r) || hasSlashDigit r) := rfl

/-- As long as the output of the UUID scan contains no slash, it copies the
input verbatim (the scan only deviates from its input at a slash). -/
theorem uRun_take_eq (l : List Char) (n : ℕ) (h : '/' ∉ (uRun 0 l).take n) :
    (uRun 0 l).take n = l.take n := by
  induction l generalizing n with
  | nil => rfl
  | cons c r ih =>
    rw [uRun_zero_cons] at h ⊢
    by_cases hm : uuidAt (c :: r) = true
    · rw [if_pos hm] at h ⊢
      cases n with
      | zero => rfl
      | succ n =>
        rw [List.take_succ_cons] at h
        exact absurd (List.mem_cons_self _ _) h
    · rw [if_neg hm] at h ⊢
      cases n with
      | zero => rfl
      | succ n =>
        rw [List.take_succ_cons] at h
        rw [List.take_succ_cons, List.take_succ_cons,
          ih n fun hx => h (List.mem_cons_of_mem _ hx)]

/-- Same for the digit scan: any deviation from the input starts at a slash. -/
theorem dRun_take_eq (l : List Char) (n : ℕ) (h : '/' ∉ (dRun false l).take n) :
    (dRun false l).take n = l.take n := by
  induction l generalizing n with
  | nil => rfl
  | cons c r ih =>
    rw [dRun_false_cons] at h ⊢
    by_cases hm : (decide (c = '/') && headIsDigit r) = true
    · rw [if_pos hm] at h ⊢
      cases n with
      | zero => rfl
      | succ n =>
        rw [List.take_succ_cons] at h
        exact absurd (List.mem_cons_self _ _) h
    · rw [if_neg hm] at h ⊢
      cases n with
      | zero => rfl
      | succ n =>
        rw [List.take_succ_cons] at h
        rw [List.take_succ_cons, List.take_succ_cons,
          ih n fun hx => h (List.mem_cons_of_mem _ hx)]

/-- A UUID match against the scanned output is already a match against the
input (the 36 matched characters are hex/dash, hence slash-free, hence
copied verbatim). -/
theorem uuidAt_of_uRun (c : Char) (r : List Char)
    (h : uuidAt (c :: uRun 0 r) = true) : uuidAt (c :: r) = true := by
  simp only [uuidAt, Bool.and_eq_true] at h ⊢
  obtain ⟨hc, hb⟩ := h
  have hmem := uuidBody36_mem_take _ hb
  have hslash : '/' ∉ (uRun 0 r).take 36 := by
    intro hx
    rcases hmem '/' hx with h' | h'
    · exact absurd h' (by decide)
    · exact absurd h' (by decide)
  have hteq := uRun_take_eq r 36 hslash
  exact ⟨hc, ((uuidBody36_congr _ _ hteq).symm.trans hb : uuidBody36 r = true)⟩

/-- Same transfer along the digit scan. -/
theorem uuidAt_of_dRun (c : Char) (r : List Char)
    (h : uuidAt (c :: dRun false r) = true) : uuidAt (c :: r) = true := by
  simp only [uuidAt, Bool.and_eq_true] at h ⊢
  obtain ⟨hc, hb⟩ := h
  have hmem := uuidBody36_mem_take _ hb
  have hslash : '/' ∉ (dRun false r).take 36 := by
    intro hx
    rcases hmem '/' hx with h' | h'
    · exact absurd h' (by decide)
    · exact absurd h' (by decide)
  have hteq := dRun_take_eq r 36 hslash
  exact ⟨hc, ((uuidBody36_congr _ _ hteq).symm.trans hb : uuidBody36 r = true)⟩

/-- The emitted `/:id` block can neither start nor contain a UUID match. -/
theorem hasUuid_slash_colon_id (X : List Char) :
    hasUuid ('/' :: ':' :: 'i' :: 'd' :: X) = hasUuid X := by
  have h1 : uuidBody36 (':' :: 'i' :: 'd' :: X) = false :=
    uuidBody36_false_cons _ _ (by decide)
  rw [hasUuid_cons, hasUuid_cons, hasUuid_cons, hasUuid_cons]
  simp [uuidAt, h1]

/-- The emitted `/:id` block contains no slash-digit pair and cannot create
one at its junctions. -/
theorem hasSlashDigit_slash_colon_id (X : List Char) :
    hasSlashDigit ('/' :: ':' :: 'i' :: 'd' :: X) = hasSlashDigit X := by
  rw [hasSlashDigit_cons, hasSlashDigit_cons, hasSlashDigit_cons, hasSlashDigit_cons]
  simp [headIsDigit]

/-- `hasUuid` is inherited by `dropWhile` (a suffix). -/
theorem hasUuid_dropWhile (p : Char → Bool) (l : List Char) (h : hasUuid l = false) :
    hasUuid (l.dropWhile p) = false := by
  induction l with
  | nil => rfl
  | cons c r ih =>
    rw [hasUuid_cons, Bool.or_eq_false_iff] at h
    rw [List.dropWhile_cons]
    split
    · exact ih h.2
    · rw [hasUuid_cons, Bool.or_eq_false_iff]
      exact h

/-- The digit scan preserves the head character. -/
theorem dRun_false_cons_head (c : Char) (r : List Char) :
    ∃ t, dRun false (c :: r) = c :: t := by
  rw [dRun_false_cons]
  by_cases hm : (decide (c = '/') && headIsDigit r) = true
  · rw [if_pos hm]
    have hc : c = '/' := of_decide_eq_true ((Bool.and_eq_true _ _).mp hm).1
    subst hc
    exact ⟨_, rfl⟩
  · rw [if_neg hm]
    exact ⟨_, rfl⟩

/-- `dropWhile` never lengthens a list. -/
theorem length_dropWhile_le_self (p : Char → Bool) (l : List Char) :
    (l.dropWhile p).length ≤ l.length := by
  induction l with
  | nil => simp
  | cons c r ih =>
    rw [List.dropWhile_cons]
    split
    · exact le_trans ih (by simp)
    · simp

/-- The UUID scan leaves no UUID match in its output. -/
theorem hasUuid_uRun (l : List Char) : hasUuid (uRun 0 l) = false := by
  have key : ∀ (n : ℕ) (l : List Char), l.length ≤ n → hasUuid (uRun 0 l) = false := by
    intro n
    induction n with
    | zero =>
      intro l hl
      rw [List.length_eq_zero.mp (Nat.le_zero.mp hl)]
      rfl
    | succ n ih =>
      intro l hl
      cases l with
      | nil => rfl
      | cons c r =>
        simp only [List.length_cons, Nat.add_le_add_iff_right] at hl
        by_cases hm : uuidAt (c :: r) = true
        · rw [uRun_zero_cons, if_pos hm, uRun_skip 36 r, hasUuid_slash_colon_id]
          exact ih _ (by simp; omega)
        · rw [uRun_zero_cons, if_neg hm, hasUuid_cons, Bool.or_eq_false_iff]
          constructor
          · cases hu : uuidAt (c :: uRun 0 r) with
            | false => rfl
            | true => exact absurd (uuidAt_of_uRun c r hu) hm
          · exact ih r hl
  exact key l.length l le_rfl

/-- The digit scan leaves no slash-digit pair in its output. -/
theorem hasSlashDigit_dRun (l : List Char) : hasSlashDigit (dRun false l) = false := by
  have key : ∀ (n : ℕ) (l : List Char), l.length ≤ n → hasSlashDigit (dRun false l) = false := by
    intro n
    induction n with
    | zero =>
      intro l hl
      rw [List.length_eq_zero.mp (Nat.le_zero.mp hl)]
      rfl
    | succ n ih =>
      intro l hl
      cases l with
      | nil => rfl
      | cons c r =>
        simp only [List.length_cons, Nat.add_le_add_iff_right] at hl
        rw [dRun_false_cons]
        by_cases hm : (decide (c = '/') && headIsDigit r) = true
        · rw [if_pos hm, dRun_true, hasSlashDigit_slash_colon_id]
          have hle := length_dropWhile_le_self (fun c => c.isDigit) r
          exact ih _ (by omega)
        · rw [if_neg hm, hasSlashDigit_cons, Bool.or_eq_false_iff]
          refine ⟨?_, ih r hl⟩
          by_cases hc : c = '/'
          · subst hc
            have hr : headIsDigit r = false := by
              cases hh : headIsDigit r
              · rfl
              · exact absurd (by simp [hh]) hm
            cases r with
            | nil => rfl
            | cons d r' =>
              obtain ⟨t, ht⟩ := dRun_false_cons_head d r'
              rw [ht]
              have hd : d.isDigit = false := by simpa [headIsDigit] using hr
              simp [headIsDigit, hd]
          · simp [hc]
  exact key l.length l le_rfl

/-- The digit scan creates no UUID match if the input had none. -/
theorem hasUuid_dRun (l : List Char) (h : hasUuid l = false) :
    hasUuid (dRun false l) = false := by
  have key : ∀ (n : ℕ) (l : List Char), l.length ≤ n → hasUuid l = false →
      hasUuid (dRun false l) = false := by
    intro n
    induction n with
    | zero =>
      intro l hl _
      rw [List.length_eq_zero.mp (Nat.le_zero.mp hl)]
      rfl
    | succ n ih =>
      intro l hl h
      cases l with
      | nil => rfl
      | cons c r =>
        simp only [List.length_cons, Nat.add_le_add_iff_right] at hl
        rw [hasUuid_cons, Bool.or_eq_false_iff] at h
        rw [dRun_false_cons]
        by_cases hm : (decide (c = '/') && headIsDigit r) = true
        · rw [if_pos hm, dRun_true, hasUuid_slash_colon_id]
          have hle := length_dropWhile_le_self (fun c => c.isDigit) r
          exact ih _ (by omega) (hasUuid_dropWhile _ _ h.2)
        · rw [if_neg hm, hasUuid_cons, Bool.or_eq_false_iff]
          constructor
          · cases hu : uuidAt (c :: dRun false r) with
            | false => rfl
            | true => exact absurd (uuidAt_of_dRun c r hu) (by simp [h.1])
          · exact ih r hl h.2
  exact key l.length l le_rfl h

/-- A UUID-free list is a fixed point of the UUID scan. -/
theorem uRun_fix (l : List Char) (h : hasUuid l = false) : uRun 0 l = l := by
  induction l with
  | nil => rfl
  | cons c r ih =>
    rw [hasUuid_cons, Bool.or_eq_false_iff] at h
    rw [uRun_zero_cons, if_neg (by simp [h.1]), ih h.2]

/-- A slash-digit-free list is a fixed point of the digit scan. -/
theorem dRun_fix (l : List Char) (h : hasSlashDigit l = false) : dRun false l = l := by
  induction l with
  | nil => rfl
  | cons c r ih =>
    rw [hasSlashDigit_cons, Bool.or_eq_false_iff] at h
    rw [dRun_false_cons, if_neg (by simp [h.1]), ih h.2]

/-- A UUID match in a list survives appending on the right. -/
theorem hasUuid_append_left (a t : List Char) (h : hasUuid a = true) :
    hasUuid (a ++ t) = true := by
  induction a with
  | nil => exact absurd h (by simp [hasUuid])
  | cons c r ih =>
    rw [hasUuid_cons, Bool.or_eq_true] at h
    rw [List.cons_append, hasUuid_cons, Bool.or_eq_true]
    rcases h with h | h
    · left
      simp only [uuidAt, Bool.and_eq_true] at h ⊢
      refine ⟨h.1, ?_⟩
      have h36 := uuidBody36_length r h.2
      have hteq : (r ++ t).take 36 = r.take 36 := by
        rw [List.take_append_eq_append_take, show 36 - r.length = 0 from by omega,
          List.take_zero, List.append_nil]
      exact (uuidBody36_congr _ _ hteq).trans h.2
    · right; exact ih h

/-- A slash-digit pair in a list survives appending on the right. -/
theorem hasSlashDigit_append_left (a t : List Char) (h : hasSlashDigit a = true) :
    hasSlashDigit (a ++ t) = true := by
  induction a with
  | nil => exact absurd h (by simp [hasSlashDigit])
  | cons c r ih =>
    rw [hasSlashDigit_cons, Bool.or_eq_true] at h
    rw [List.cons_append, hasSlashDigit_cons, Bool.or_eq_true]
    rcases h with h | h
    · left
      rw [Bool.and_eq_true] at h ⊢
      refine ⟨h.1, ?_⟩
      cases r with
      | nil => exact absurd h.2 (by simp [headIsDigit])
      | cons d r' => simpa [headIsDigit] using h.2
    · right; exact ih h

/-- `hasUuid` restricted to a front segment. -/
theorem hasUuid_false_of_append (a t : List Char) (h : hasUuid (a ++ t) = false) :
    hasUuid a = false := by
  cases ha : hasUuid a
  · rfl
  · rw [hasUuid_append_left a t ha] at h
    exact h

/-- `hasSlashDigit` restricted to a front segment. -/
theorem hasSlashDigit_false_of_append (a t : List Char) (h : hasSlashDigit (a ++ t) = false) :
    hasSlashDigit a = false := by
  cases ha : hasSlashDigit a
  · rfl
  · rw [hasSlashDigit_append_left a t ha] at h
    exact h

/-- A second application of `normalizeRoutePath` changes nothing, provided the
first application returned the root or a path without a trailing slash. -/
theorem normalizeRoutePath_second_fix (p : String)
    (hcond : normalizeRoutePath p = "/" ∨
      ¬ (normalizeRoutePath p).data.getLast? = some '/') :
    normalizeRoutePath (normalizeRoutePath p) = normalizeRoutePath p := by
  set y := (dRun false (uRun 0 p.data)).takeWhile (fun c => c ≠ '?') with hy
  set w := jsOrRoot (stripTrailingSlash y) with hw
  have hnorm : normalizeRoutePath p = String.mk w := rfl
  have hyU : hasUuid y = false := by
    have h1 : hasUuid (dRun false (uRun 0 p.data)) = false :=
      hasUuid_dRun _ (hasUuid_uRun p.data)
    refine hasUuid_false_of_append _ ((dRun false (uRun 0 p.data)).dropWhile fun c => c ≠ '?') ?_
    rw [hy, List.takeWhile_append_dropWhile]
    exact h1
  have hyD : hasSlashDigit y = false := by
    refine hasSlashDigit_false_of_append _
      ((dRun false (uRun 0 p.data)).dropWhile fun c => c ≠ '?') ?_
    rw [hy, List.takeWhile_append_dropWhile]
    exact hasSlashDigit_dRun _
  have hyQ : ∀ c ∈ y, ¬ c = '?' := by
    intro c hc
    have := List.mem_takeWhile_imp (hy ▸ hc)
    simpa using this
  have hsU : hasUuid (stripTrailingSlash y) = false := by
    unfold stripTrailingSlash
    split
    · rcases List.eq_nil_or_concat y with hnil | ⟨a, b, hab⟩
      · rw [hnil]; rfl
      · rw [List.concat_eq_append] at hab
        rw [hab, List.dropLast_concat]
        exact hasUuid_false_of_append _ _ (hab ▸ hyU)
    · exact hyU
  have hsD : hasSlashDigit (stripTrailingSlash y) = false := by
    unfold stripTrailingSlash
    split
    · rcases List.eq_nil_or_concat y with hnil | ⟨a, b, hab⟩
      · rw [hnil]; rfl
      · rw [List.concat_eq_append] at hab
        rw [hab, List.dropLast_concat]
        exact hasSlashDigit_false_of_append _ _ (hab ▸ hyD)
    · exact hyD
  have hsQ : ∀ c ∈ stripTrailingSlash y, ¬ c = '?' := by
    unfold stripTrailingSlash
    split
    · rcases List.eq_nil_or_concat y with hnil | ⟨a, b, hab⟩
      · rw [hnil]; intro c hc; simp at hc
      · rw [List.concat_eq_append] at hab
        rw [hab, List.dropLast_concat]
        intro c hc
        exact hyQ c (hab ▸ List.mem_append_left [b] hc)
    · exact hyQ
  have hwU : hasUuid w = false := by
    rw [hw]; unfold jsOrRoot; split
    · decide
    · exact hsU
  have hwD : hasSlashDigit w = false := by
    rw [hw]; unfold jsOrRoot; split
    · decide
    · exact hsD
  have hwQ : ∀ c ∈ w, ¬ c = '?' := by
    rw [hw]; unfold jsOrRoot; split
    · intro c hc
      simp only [List.mem_singleton] at hc
      subst hc
      decide
    · exact hsQ
  have hwne : w ≠ [] := by
    rw [hw]; unfold jsOrRoot; split
    · simp
    · assumption
  have hUfix : uRun 0 w = w := uRun_fix w hwU
  have hDfix : dRun false w = w := dRun_fix w hwD
  have hQfix : w.takeWhile (fun c => c ≠ '?') = w :=
    List.takeWhile_eq_self_iff.mpr fun x hx => by simpa using hwQ x hx
  rw [hnorm]
  show String.mk (jsOrRoot (stripTrailingSlash
    ((dRun false (uRun 0 w)).takeWhile fun c => c ≠ '?'))) = String.mk w
  rw [hUfix, hDfix, hQfix]
  congr 1
  rcases hcond with hroot | hlast
  · have hwroot : w = ['/'] := by
      have := congrArg String.data (hnorm.symm.trans hroot)
      simpa using this
    rw [hwroot]
    decide
  · have hlast' : ¬ w.getLast? = some '/' := by
      rw [hnorm] at hlast
      simpa using hlast
    unfold stripTrailingSlash
    rw [if_neg hlast']
    unfold jsOrRoot
    rw [if_neg hwne]

/-- C8 (amended): `normalizeRoutePath` applied twice equals a single
application for every path whose normalization is the root `/` or does not end
in a slash — equivalently, for every path whose pre-query part does not end in
a double slash; and `/users/123/orders/<uuid>?x=1` normalizes to
`/users/:id/orders/:id`.  (Unrestricted idempotence fails: see the
counterexample at `"/a//"`.) -/
theorem normalizeRoutePath_idempotent_amended :
    (∀ p : String,
      (normalizeRoutePath p = "/" ∨ ¬ (normalizeRoutePath p).data.getLast? = some '/') →
        normalizeRoutePath (normalizeRoutePath p) = normalizeRoutePath p) ∧
    normalizeRoutePath "/users/123/orders/9f8e7d6c-5b4a-3c2d-1e0f-a1b2c3d4e5f6?x=1" =
      "/users/:id/orders/:id" :=
  ⟨normalizeRoutePath_second_fix, by decide⟩

/-- C8 counterexample: `normalizeRoutePath` is not idempotent as claimed; at
`"/a//"` one application yields `"/a/"` but a second yields `"/a"`. -/
theorem normalizeRoutePath_not_idempotent :
    normalizeRoutePath (normalizeRoutePath "/a//") ≠ normalizeRoutePath "/a//" := by decide

/-- Witness for `normalizeRoutePath_idempotent_amended` at `"/users/5"`. -/
theorem normalizeRoutePath_idempotent_amended_witness :
    normalizeRoutePath (normalizeRoutePath "/users/5") = normalizeRoutePath "/users/5" :=
  normalizeRoutePath_idempotent_amended.1 "/users/5" (Or.inr (by decide))

/-- A `(method, path)` pair extracted from one test's logs.  The log-mining
regex of `extractRoutesFromLogs` is abstracted: `calculateRouteCoverage` is
embedded over the per-test list of extracted routes. -/
structure LogRoute where
  method : String
  path : String
deriving DecidableEq

/-- A value of the `testedRoutes` map of `calculateRouteCoverage`
(`lastTested` is set to `null` once and never updated, and is omitted). -/
structure TestedRoute where
  method : String
  path : String
  originalPath : String
  testCount : ℕ
deriving DecidableEq

/-- One element of the caller-supplied `definedRoutes` inventory. -/
structure DefinedRoute where
  method : String
  path : String
  category : Option String
deriving DecidableEq

/-- One entry of the `routes` list of the coverage report. -/
structure RouteCoverageEntry where
  method : String
  path : String
  tested : Bool
  testCount : ℕ
  category : String
deriving DecidableEq

/-- The `` `${method}:${path}` `` map key. -/
def routeKey (m p : String) : String := m ++ ":" ++ p

/-- Does the insertion-ordered map contain the key? -/
def assocHas (acc : List (String × TestedRoute)) (key : String) : Bool :=
  acc.any fun kv => kv.1 = key

/-- `testedRoutes.get(key)` on the insertion-ordered map. -/
def assocGet : List (String × TestedRoute) → String → Option TestedRoute
  | [], _ => none
  | (k, v) :: rest, key => if k = key then some v else assocGet rest key

/-- `existing.testCount++` on the insertion-ordered map. -/
def assocBump : List (String × TestedRoute) → String → List (String × TestedRoute)
  | [], _ => []
  | (k, v) :: rest, key =>
    if k = key then (k, { v with testCount := v.testCount + 1 }) :: rest
    else (k, v) :: assocBump rest key

/-- Processing of one extracted route in `calculateRouteCoverage`: insert the
normalized key with `testCount: 0` when absent, then increment. -/
def insertRoute (acc : List (String × TestedRoute)) (route : LogRoute) :
    List (String × TestedRoute) :=
  let normalized := normalizeRoutePath route.path
  let key := routeKey route.method normalized
  let acc' :=
    if assocHas acc key then acc
    else acc ++ [(key,
      { method := route.method, path := normalized
        originalPath := route.path, testCount := 0 })]
  assocBump acc' key

/-- The `testedRoutes` map built from all test results. -/
def buildTestedRoutes (tests : List (List LogRoute)) : List (String × TestedRoute) :=
  tests.foldl (fun acc routes => routes.foldl insertRoute acc) []

/-- Result record of `calculateRouteCoverage`.  The zero-runs early return
omits the `discoveredRoutes` field, hence the `Option`. -/
structure CoverageReport where
  totalRoutes : ℕ
  testedRoutes : ℕ
  untestedRoutes : ℤ
  coveragePercentage : ℚ
  routes : List RouteCoverageEntry
  discoveredRoutes : Option (List RouteCoverageEntry)

/-- `calculateRouteCoverage(projectId, definedRoutes)` from
`coverage-tracker.js`, embedded over the fetched recent-run ids and the
per-test extracted route lists. -/
def calculateRouteCoverage (runs : List String) (tests : List (List LogRoute))
    (definedRoutes : List DefinedRoute) : CoverageReport :=
  if runs.length = 0 then
    { totalRoutes := definedRoutes.length
      testedRoutes := 0
      untestedRoutes := definedRoutes.length
      coveragePercentage := 0
      routes := []
      discoveredRoutes := none }
  else
    let testedRoutes := buildTestedRoutes tests
    let definedEntries := definedRoutes.map fun route =>
      let key := routeKey route.method route.path
      let tested := assocHas testedRoutes key
      ({ method := route.method
         path := route.path
         tested := tested
         testCount := if tested then ((assocGet testedRoutes key).map TestedRoute.testCount).getD 0 else 0
         category := match route.category with
           | none => "uncategorized"
           | some s => jsOrString s "uncategorized" } : RouteCoverageEntry)
    let discoveredEntries := (testedRoutes.filter fun kv =>
        ! definedRoutes.any fun r => routeKey r.method r.path = kv.1).map fun kv =>
      ({ method := kv.2.method
         path := kv.2.path
         tested := true
         testCount := kv.2.testCount
         category := "discovered" } : RouteCoverageEntry)
    let routeCoverage := definedEntries ++ discoveredEntries
    let testedCount := (routeCoverage.filter fun r => r.tested).length
    let totalCount := if definedRoutes.length = 0 then routeCoverage.length else definedRoutes.length
    { totalRoutes := totalCount
      testedRoutes := testedCount
      untestedRoutes := (totalCount : ℤ) - (testedCount : ℤ)
      coveragePercentage := if 0 < totalCount then (testedCount : ℚ) / (totalCount : ℚ) * 100 else 0
      routes := routeCoverage
      discoveredRoutes := some (routeCoverage.filter fun r => r.category = "discovered") }

/-- Per-category roll-up record of `getCoverageSummaryByCategory`. -/
structure CategorySummary where
  total : ℕ
  tested : ℕ
  untested : ℕ
  coverage : ℚ
deriving DecidableEq

/-- One fold step of `getCoverageSummaryByCategory`: create the bucket when
absent, then bump its counters. -/
def bumpCategory (acc : List (String × CategorySummary)) (cat : String) (tested : Bool) :
    List (String × CategorySummary) :=
  let acc' :=
    if acc.any fun kv => kv.1 = cat then acc
    else acc ++ [(cat, { total := 0, tested := 0, untested := 0, coverage := 0 })]
  acc'.map fun kv =>
    if kv.1 = cat then
      (kv.1,
        { total := kv.2.total + 1
          tested := kv.2.tested + (if tested then 1 else 0)
          untested := kv.2.untested + (if tested then 0 else 1)
          coverage := kv.2.coverage })
    else kv

/-- `getCoverageSummaryByCategory(routes)` from `coverage-tracker.js`. -/
def getCoverageSummaryByCategory (routes : List RouteCoverageEntry) :
    List (String × CategorySummary) :=
  let summary := routes.foldl
    (fun acc route => bumpCategory acc (jsOrString route.category "uncategorized") route.tested)
    []
  summary.map fun kv =>
    (kv.1,
      { kv.2 with coverage :=
          if 0 < kv.2.total then (kv.2.tested : ℚ) / (kv.2.total : ℚ) * 100 else 0 })

/-- `getUntestedCriticalRoutes(routes, criticalPaths)` from
`coverage-tracker.js`; the JS `RegExp.test` is abstracted as the `regexTest`
parameter. -/
def getUntestedCriticalRoutes (regexTest : String → String → Bool)
    (routes : List RouteCoverageEntry) (criticalPaths : List String) :
    List RouteCoverageEntry :=
  routes.filter fun route =>
    !route.tested && criticalPaths.any fun pat => regexTest pat (route.method ++ " " ++ route.path)

/-- The `summary` sub-object of `generateCoverageReport`. -/
structure FullReportSummary where
  totalRoutes : ℕ
  testedRoutes : ℕ
  untestedRoutes : ℤ
  coveragePercentage : ℚ
  discoveredRoutes : ℕ
  untestedCritical : ℕ

/-- Result of `generateCoverageReport` (`generatedAt` wall-clock field
omitted; `trends` passed through opaquely). -/
structure FullReport where
  summary : FullReportSummary
  byCategory : List (String × CategorySummary)
  routes : List RouteCoverageEntry
  untestedCritical : List RouteCoverageEntry
  discoveredRoutes : List RouteCoverageEntry
  trends : Option (List (String × ℕ))

/-- `generateCoverageReport(projectId, options)` from `coverage-tracker.js`:
composes `calculateRouteCoverage`, the category summary and the critical-route
filter into one payload.  Building the summary evaluates
`coverage.discoveredRoutes.length`; when that field is absent (`undefined`)
the JS engine throws a `TypeError`, modelled as `Except.error`. -/
def generateCoverageReport (regexTest : String → String → Bool) (runs : List String)
    (tests : List (List LogRoute)) (definedRoutes : List DefinedRoute)
    (criticalPaths : List String) (trends : Option (List (String × ℕ))) :
    Except String FullReport :=
  let coverage := calculateRouteCoverage runs tests definedRoutes
  let summaryByCategory := getCoverageSummaryByCategory coverage.routes
  let untestedCritical := getUntestedCriticalRoutes regexTest coverage.routes criticalPaths
  match coverage.discoveredRoutes with
  | none => .error "TypeError: Cannot read properties of undefined (reading length)"
  | some discovered =>
    .ok
      { summary :=
          { totalRoutes := coverage.totalRoutes
            testedRoutes := coverage.testedRoutes
            untestedRoutes := coverage.untestedRoutes
            coveragePercentage := jsRound (coverage.coveragePercentage * 100) / 100
            discoveredRoutes := discovered.length
            untestedCritical := untestedCritical.length }
        byCategory := summaryByCategory
        routes := coverage.routes
        untestedCritical := untestedCritical
        discoveredRoutes := discovered
        trends := trends }

/-- C4 (code bug): with zero recorded runs, `calculateRouteCoverage` does
return 0% coverage and an empty route list, but its early return omits the
`discoveredRoutes` field, so `generateCoverageReport` — which reads
`coverage.discoveredRoutes.length` for its summary — throws a `TypeError`
instead of completing. -/
theorem generateCoverageReport_zero_runs_crash
    (regexTest : String → String → Bool) (tests : List (List LogRoute))
    (definedRoutes : List DefinedRoute) (criticalPaths : List String)
    (trends : Option (List (String × ℕ))) :
    (calculateRouteCoverage [] tests definedRoutes).coveragePercentage = 0 ∧
    (calculateRouteCoverage [] tests definedRoutes).routes = [] ∧
    (calculateRouteCoverage [] tests definedRoutes).discoveredRoutes = none ∧
    generateCoverageReport regexTest [] tests definedRoutes criticalPaths trends =
      Except.error "TypeError: Cannot read properties of undefined (reading length)" := by
  have h : calculateRouteCoverage [] tests definedRoutes =
      { totalRoutes := definedRoutes.length
        testedRoutes := 0
        untestedRoutes := definedRoutes.length
        coveragePercentage := 0
        routes := []
        discoveredRoutes := none } := rfl
  refine ⟨by rw [h], by rw [h], by rw [h], ?_⟩
  unfold generateCoverageReport
  rw [h]

/-- Helper: length of a filtered append whose front segment passes the filter
entirely and whose back segment fails it entirely. -/
theorem length_filter_append_of (p : RouteCoverageEntry → Bool)
    (A B : List RouteCoverageEntry)
    (hA : ∀ a ∈ A, p a = true) (hB : ∀ b ∈ B, p b = false) :
    ((A ++ B).filter p).length = A.length := by
  rw [List.filter_append, List.filter_eq_self.mpr hA,
    show B.filter p = [] from List.filter_eq_nil_iff.mpr fun b hb => by simp [hB b hb]]
  simp

/-- C9 (amended): with at least one recorded run, the `routes` list of
`calculateRouteCoverage` is exactly one entry per defined route, in order,
followed by zero or more entries tagged `discovered`; provided no defined
route is itself categorized `"discovered"`, exactly `K` entries are tagged
non-discovered; and `testedRoutes + untestedRoutes = totalRoutes` always. -/
theorem calculateRouteCoverage_wellformed (runs : List String)
    (tests : List (List LogRoute)) (defined : List DefinedRoute)
    (hruns : runs ≠ [])
    (hcat : ∀ r ∈ defined, ¬ r.category = some "discovered") :
    ((calculateRouteCoverage runs tests defined).routes.take defined.length).map
        (fun e => (e.method, e.path)) = defined.map (fun r => (r.method, r.path)) ∧
    (∀ e ∈ (calculateRouteCoverage runs tests defined).routes.drop defined.length,
        e.category = "discovered") ∧
    ((calculateRouteCoverage runs tests defined).routes.filter
        (fun e => ¬ e.category = "discovered")).length = defined.length ∧
    ((calculateRouteCoverage runs tests defined).testedRoutes : ℤ) +
        (calculateRouteCoverage runs tests defined).untestedRoutes =
      ((calculateRouteCoverage runs tests defined).totalRoutes : ℤ) := by
  have hlen : ¬ runs.length = 0 := by simpa [List.length_eq_zero] using hruns
  unfold calculateRouteCoverage
  rw [if_neg hlen]
  dsimp only
  refine ⟨?_, ?_, ?_, ?_⟩
  · rw [List.take_left' (List.length_map _ _), List.map_map]
    rfl
  · rw [List.drop_left' (List.length_map _ _)]
    intro e he
    simp only [List.mem_map] at he
    obtain ⟨kv, -, rfl⟩ := he
    rfl
  · rw [length_filter_append_of _ _ _ ?hA ?hB, List.length_map]
    case hA =>
      intro a ha
      simp only [List.mem_map] at ha
      obtain ⟨r, hr, rfl⟩ := ha
      simp only [decide_eq_true_eq]
      cases hrc : r.category with
      | none => decide
      | some s =>
        by_cases hs : s = ""
        · simp [jsOrString, hs]
        · have hsd : ¬ s = "discovered" := fun hEq => hcat r hr (by rw [hrc, hEq])
          simp [jsOrString, hs, hsd]
    case hB =>
      intro b hb
      simp only [List.mem_map] at hb
      obtain ⟨kv, -, rfl⟩ := hb
      simp
  · push_cast
    ring

/-- C9 counterexample: a defined route whose own `category` is the literal
string `"discovered"` is tagged `discovered` in the report, so the claim
"exactly K entries whose category is not discovered" fails at `K = 1`. -/
theorem calculateRouteCoverage_discovered_category_counterexample :
    ((calculateRouteCoverage ["r1"] []
        [{ method := "GET", path := "/x", category := some "discovered" }]).routes.filter
      (fun e => ¬ e.category = "discovered")).length ≠
      ([{ method := "GET", path := "/x", category := some "discovered" }] :
        List DefinedRoute).length := by
  decide

/-- Witness for `calculateRouteCoverage_wellformed` at one run, no tests and a
single uncategorized route. -/
theorem calculateRouteCoverage_wellformed_witness :
    ((calculateRouteCoverage ["r1"] [] [{ method := "GET", path := "/x", category := none }]).routes.filter
      (fun e => ¬ e.category = "discovered")).length =
      ([{ method := "GET", path := "/x", category := none }] : List DefinedRoute).length :=
  (calculateRouteCoverage_wellformed ["r1"] []
    [{ method := "GET", path := "/x", category := none }]
    (by decide) (by intro r hr; simp at hr; rw [hr]; decide)).2.2.1

end CoverageTracker

namespace Jobs

/-- One row of the `jobs_queue` table (schema: `attempts int default 0`);
timestamps are abstract naturals. -/
structure JobRow where
  id : ℕ
  kind : String
  payload : String
  status : String
  attempts : ℤ
  last_error : Option String
  scheduled_at : ℕ
  locked_by : Option String
  locked_at : Option ℕ
deriving DecidableEq

/-- `MAX_ATTEMPTS` from `jobs.js`. -/
def MAX_ATTEMPTS : ℤ := 3

/-- `markJobError(jobId, errorMessage)` from `jobs.js`: set `status` to
`error`, store `errorMessage?.slice(0, 5000) || 'Unknown error'` in
`last_error` and evaluate `attempts + 1` in the store (the
`supabase.raw('attempts + 1')` expression).  The Supabase client wrapper
(`lib/supabase.js`) is not among the sources; per the spec its
`.update(...).eq('id', jobId)` applies the field updates to every row whose
id matches. -/
def markJobError (table : List JobRow) (jobId : ℕ) (errorMessage : Option String) :
    List JobRow :=
  let truncatedError :=
    match errorMessage with
    | none => "Unknown error"
    | some m => jsOrString (jsSlice m 5000) "Unknown error"
  table.map fun r =>
    if r.id = jobId then
      { r with status := "error", last_error := some truncatedError,
               attempts := r.attempts + 1 }
    else r

/-- `markJobDone(jobId)` from `jobs.js`: set `status` to `done`. -/
def markJobDone (table : List JobRow) (jobId : ℕ) : List JobRow :=
  table.map fun r => if r.id = jobId then { r with status := "done" } else r

/-- `createJob(kind, payload)` from `jobs.js`: insert a `queued` row; the
remaining columns take their schema defaults (`attempts` 0). -/
def createJob (table : List JobRow) (newId : ℕ) (kind payload : String) (now : ℕ) :
    List JobRow :=
  table ++ [{ id := newId, kind := kind, payload := payload, status := "queued"
              attempts := 0, last_error := none, scheduled_at := now
              locked_by := none, locked_at := none }]

/-- Row eligibility of the `acquire_job` SQL function:
`status = 'queued' and attempts < 3`. -/
def eligible (r : JobRow) : Bool := r.status = "queued" && r.attempts < MAX_ATTEMPTS

/-- The `order by scheduled_at limit 1` selection (first in table order on
equal timestamps). -/
def selectNext (table : List JobRow) : Option JobRow :=
  (table.filter eligible).foldl
    (fun best r =>
      match best with
      | none => some r
      | some b => if r.scheduled_at < b.scheduled_at then some r else some b)
    none

/-- The `acquire_job` SQL function: atomically pick the next eligible job,
mark it `running` and stamp the lock columns; `attempts` is not touched. -/
def acquireJob (table : List JobRow) (workerId : String) (now : ℕ) :
    List JobRow × Option JobRow :=
  match selectNext table with
  | none => (table, none)
  | some j =>
    (table.map fun r =>
      if r.id = j.id then
        { r with status := "running", locked_by := some workerId, locked_at := some now }
      else r,
     some j)

/-- C2 (amended): `markJobError` maps the matching row to `status = 'error'`,
`attempts` incremented by exactly one, and `last_error` holding the message
truncated to 5000 characters — or the fallback `'Unknown error'` when the
message is empty or absent; every other row is untouched; and `enqueue`,
`acquire` and `markDone` leave every row's `attempts` unchanged (`enqueue`
adds its new row at `attempts = 0`). -/
theorem markJobError_attempts_spec :
    (∀ (table : List JobRow) (jobId : ℕ) (m : String) (r : JobRow),
      r ∈ table → r.id = jobId →
        ({ r with status := "error"
                  last_error := some (jsOrString (jsSlice m 5000) "Unknown error")
                  attempts := r.attempts + 1 } : JobRow) ∈
          markJobError table jobId (some m)) ∧
    (∀ (table : List JobRow) (jobId : ℕ) (m : String) (r : JobRow),
      r ∈ table → ¬ r.id = jobId → r ∈ markJobError table jobId (some m)) ∧
    (∀ m : String, ¬ m = "" →
      jsOrString (jsSlice m 5000) "Unknown error" = jsSlice m 5000 ∧
      (jsSlice m 5000).length ≤ 5000) ∧
    (∀ (table : List JobRow) (jobId : ℕ),
      (markJobDone table jobId).map JobRow.attempts = table.map JobRow.attempts) ∧
    (∀ (table : List JobRow) (workerId : String) (now : ℕ),
      ((acquireJob table workerId now).1).map JobRow.attempts = table.map JobRow.attempts) ∧
    (∀ (table : List JobRow) (newId : ℕ) (kind payload : String) (now : ℕ),
      (createJob table newId kind payload now).map JobRow.attempts =
        table.map JobRow.attempts ++ [0]) := by
  refine ⟨?_, ?_, ?_, ?_, ?_, ?_⟩
  · intro table jobId m r hr hid
    unfold markJobError
    refine List.mem_map.mpr ⟨r, hr, ?_⟩
    rw [if_pos hid]
  · intro table jobId m r hr hid
    unfold markJobError
    refine List.mem_map.mpr ⟨r, hr, ?_⟩
    rw [if_neg hid]
  · intro m hm
    have hne : ¬ jsSlice m 5000 = "" := by
      intro h0
      apply hm
      have hdata : m.data.take 5000 = [] := congrArg String.data h0
      have hlen0 : (m.data.take 5000).length = 0 := by rw [hdata]; rfl
      rw [List.length_take] at hlen0
      have hml : m.data = [] := List.length_eq_zero.mp (by omega)
      exact String.ext (by simpa using hml)
    refine ⟨by simp [jsOrString, hne], ?_⟩
    show (String.mk (m.data.take 5000)).length ≤ 5000
    have hl : (String.mk (m.data.take 5000)).length = (m.data.take 5000).length := rfl
    rw [hl, List.length_take]
    omega
  · intro table jobId
    unfold markJobDone
    rw [List.map_map]
    refine List.map_congr_left fun r hr => ?_
    by_cases hid : r.id = jobId
    · simp [hid]
    · simp [hid]
  · intro table workerId now
    unfold acquireJob
    cases hsel : selectNext table with
    | none => rfl
    | some j =>
      dsimp only
      rw [List.map_map]
      refine List.map_congr_left fun r hr => ?_
      by_cases hid : r.id = j.id
      · simp [hid]
      · simp [hid]
  · intro table newId kind payload now
    unfold createJob
    rw [List.map_append]
    rfl

set_option maxRecDepth 8192 in
/-- Witness for `markJobError_attempts_spec`: a concrete row is transitioned
to `error` with `attempts` 1 and the truncated message. -/
theorem markJobError_attempts_spec_witness :
    ({ id := 1, kind := "plan", payload := "", status := "error", attempts := 1
       last_error := some "boom", scheduled_at := 0, locked_by := none
       locked_at := none } : JobRow) ∈
      markJobError
        [{ id := 1, kind := "plan", payload := "", status := "running", attempts := 0
           last_error := none, scheduled_at := 0, locked_by := none, locked_at := none }]
        1 (some "boom") := by
  have h := markJobError_attempts_spec.1
    [{ id := 1, kind := "plan", payload := "", status := "running", attempts := 0
       last_error := none, scheduled_at := 0, locked_by := none, locked_at := none }]
    1 "boom"
    { id := 1, kind := "plan", payload := "", status := "running", attempts := 0
      last_error := none, scheduled_at := 0, locked_by := none, locked_at := none }
    (by simp) rfl
  have heq : jsOrString (jsSlice "boom" 5000) "Unknown error" = "boom" := by decide
  simpa [heq] using h

set_option maxRecDepth 8192 in
/-- C2 counterexample: for the empty message, `markJobError` stores the
fallback `'Unknown error'`, not the (empty) truncated message. -/
theorem markJobError_empty_message_counterexample :
    ¬ (markJobError
        [{ id := 1, kind := "plan", payload := "", status := "running", attempts := 0
           last_error := none, scheduled_at := 0, locked_by := none, locked_at := none }]
        1 (some "")).map JobRow.last_error = [some (jsSlice "" 5000)] := by
  decide

end Jobs

namespace Runner

/-- A JavaScript exception: an ordinary thrown `Error`, or the
`ReferenceError` raised in strict mode (ES modules) when an undeclared
identifier is evaluated. -/
inductive JsErr where
  | thrown (msg : String)
  | referenceError (ident : String)
deriving DecidableEq

/-- The job object returned by `acquireJob` in `index.js`. -/
structure AcquiredJob where
  id : ℕ
  kind : String
deriving DecidableEq

/-- Job-store side effects performed by `processJob` (the store functions in
`jobs.js` never throw: they catch internally and return `false`). -/
inductive StoreOp where
  | markDone (id : ℕ)
  | markError (id : ℕ) (msg : String)
deriving DecidableEq

/-- The `switch (job.kind)` of `processJob`: route to the `plan`, `generate`
or `run` handler (opaque collaborators that either return or throw), and
throw on any unknown kind. -/
def dispatch (runPlanner runGenerator runRunner : AcquiredJob → Except String Unit)
    (job : AcquiredJob) : Except String Unit :=
  if job.kind = "plan" then runPlanner job
  else if job.kind = "generate" then runGenerator job
  else if job.kind = "run" then runRunner job
  else Except.error ("Unknown job kind: " ++ job.kind)

/-- A lexical scope: identifier → bound job value. -/
def lookupVar : List (String × AcquiredJob) → String → Option AcquiredJob
  | [], _ => none
  | (x, v) :: rest, y => if x = y then some v else lookupVar rest y

/-- The `catch` block of `processJob`.  `const job` is declared inside the
`try` block and is block-scoped to it (ES2015), so the function-level scope
the catch block runs in has no binding for `job`; evaluating `job?.id` in
strict mode therefore throws `ReferenceError: job is not defined`, which
nothing inside the catch handles. -/
def catchBlock (fnScope : List (String × AcquiredJob)) (errMsg : String) :
    Except JsErr (List StoreOp) :=
  match lookupVar fnScope "job" with
  | none => Except.error (JsErr.referenceError "job")
  | some j => Except.ok [StoreOp.markError j.id errMsg]

/-- `processJob()` from `services/runner/index.js`: acquire a job (`none`
when the queue is empty), dispatch it by kind, `markJobDone` on success, and
run the catch block on any throw.  Returns the outcome (an `Except.error`
means an exception escaped `processJob`) together with the store operations
performed. -/
def processJob (acquired : Option AcquiredJob)
    (runPlanner runGenerator runRunner : AcquiredJob → Except String Unit) :
    Except JsErr Unit × List StoreOp :=
  let fnScope : List (String × AcquiredJob) := []
  match acquired with
  | none => (Except.ok (), [])
  | some job =>
    match dispatch runPlanner runGenerator runRunner job with
    | Except.ok () => (Except.ok (), [StoreOp.markDone job.id])
    | Except.error msg =>
      match catchBlock fnScope msg with
      | Except.ok ops => (Except.ok (), ops)
      | Except.error e => (Except.error e, [])

/-- The `while (true)` loop of `startPolling`, run over a finite schedule of
acquire results: each tick awaits `processJob`; an exception escaping
`processJob` escapes the loop (and `main().catch` then exits the process). -/
def pollLoop (schedule : List (Option AcquiredJob))
    (runPlanner runGenerator runRunner : AcquiredJob → Except String Unit) :
    Except JsErr (List StoreOp) :=
  match schedule with
  | [] => Except.ok []
  | acq :: rest =>
    match processJob acq runPlanner runGenerator runRunner with
    | (Except.ok (), ops) =>
      (pollLoop rest runPlanner runGenerator runRunner).map fun more => ops ++ more
    | (Except.error e, _) => Except.error e

/-- C1 (code bug): whenever an acquired job's handler throws, the catch block
itself throws `ReferenceError: job is not defined` (because `const job` is
scoped to the try block), so `markJobError` is never called, the exception
escapes `processJob`, and the polling loop terminates instead of continuing;
concretely so for a job of unknown kind. -/
theorem processJob_handler_error_escapes :
    (∀ (job : AcquiredJob) (hp hg hr : AcquiredJob → Except String Unit) (msg : String),
      dispatch hp hg hr job = Except.error msg →
        processJob (some job) hp hg hr = (Except.error (JsErr.referenceError "job"), [])) ∧
    (∀ (job : AcquiredJob) (hp hg hr : AcquiredJob → Except String Unit) (msg : String)
      (rest : List (Option AcquiredJob)),
      dispatch hp hg hr job = Except.error msg →
        pollLoop (some job :: rest) hp hg hr =
          Except.error (JsErr.referenceError "job")) ∧
    processJob (some { id := 1, kind := "bogus" })
        (fun _ => Except.ok ()) (fun _ => Except.ok ()) (fun _ => Except.ok ()) =
      (Except.error (JsErr.referenceError "job"), []) := by
  have key : ∀ (job : AcquiredJob) (hp hg hr : AcquiredJob → Except String Unit)
      (msg : String), dispatch hp hg hr job = Except.error msg →
        processJob (some job) hp hg hr = (Except.error (JsErr.referenceError "job"), []) := by
    intro job hp hg hr msg hmsg
    unfold processJob
    dsimp only
    rw [hmsg]
    rfl
  refine ⟨key, ?_, ?_⟩
  · intro job hp hg hr msg rest hmsg
    unfold pollLoop
    rw [key job hp hg hr msg hmsg]
  · exact key _ _ _ _ "Unknown job kind: bogus" rfl

/-- Witness for `processJob_handler_error_escapes`: a `plan` job whose
handler throws crashes the two-tick polling loop with the `ReferenceError`,
recording no store operation. -/
theorem processJob_handler_error_escapes_witness :
    pollLoop [some { id := 7, kind := "plan" }, none]
        (fun _ => Except.error "LLM call failed") (fun _ => Except.ok ())
        (fun _ => Except.ok ()) =
      Except.error (JsErr.referenceError "job") :=
  processJob_handler_error_escapes.2.1 { id := 7, kind := "plan" }
    (fun _ => Except.error "LLM call failed") (fun _ => Except.ok ())
    (fun _ => Except.ok ()) "LLM call failed" [none] rfl

end Runner

namespace Modules

/-- The named exports of `services/runner/lib/jobs.js`. -/
def jobsExports : List String :=
  ["acquireJob", "markJobRunning", "markJobDone", "markJobError", "createJob",
   "getJobStats", "cleanupOldJobs", "WORKER_ID", "MAX_ATTEMPTS"]

/-- The names `workers/planner.js` imports from `../lib/jobs.js`
(line 10: `import { enqueueJob } from '../lib/jobs.js'`). -/
def plannerJobsImports : List String := ["enqueueJob"]

/-- The names `workers/generator.js` imports from `../lib/jobs.js`
(line 11: `import { enqueueJob } from '../lib/jobs.js'`). -/
def generatorJobsImports : List String := ["enqueueJob"]

/-- ES-module linking: every imported name must be among the source module's
exports, otherwise module instantiation fails (the importing module never
runs). -/
def resolvesImports (imports exports : List String) : Bool :=
  imports.all fun n => exports.contains n

/-- C3 (code bug): the Job Store module exports its enqueue operation as
`createJob` and exports no `enqueueJob`, yet both the Plan and the Generate
handler import `enqueueJob` from it — that import does not link, so the
claimed follow-on `enqueue` calls can never resolve to the Job Store's
exported enqueue operation. -/
theorem enqueueJob_import_unresolved :
    resolvesImports plannerJobsImports jobsExports = false ∧
    resolvesImports generatorJobsImports jobsExports = false ∧
    jobsExports.contains "createJob" = true ∧
    jobsExports.contains "enqueueJob" = false := by
  decide

end Modules

end QAAI
